import Mathlib

/-!
Verification development for the astronomical computation engine exposed by
`src/index.d.ts` (a typed interface in the Swiss Ephemeris tradition) together
with its natural-language specification.

The repository ships only the typed interface (declarations with documentation
comments) and a thin web form; the numeric engine behind the interface is not
part of `src/`.  Consequently the engine operations verified here are modelled
from the specification and from the documentation comments of the declarations,
as noted on each definition.  Double-precision values are modelled as exact
rationals (every IEEE double is a rational number) except where a quantity is
intrinsically tied to pi (radian normalization, trigonometric coordinate
transforms), which are modelled over the real numbers.
-/

/-- Result flag of fallible calls: `OK` or `ERR`, as in the interface. -/
inductive SweFlag
  | OK
  | ERR
deriving DecidableEq

/-- Three-valued result status from the result convention of the spec:
success, soft-warning (data still populated), or hard error. -/
inductive Status
  | ok
  | warning
  | error
deriving DecidableEq

/-! ### Generic floor-remainder helpers

The normalization utilities all compute `x - m * ⌊x / m⌋` for a positive
modulus `m` (360 degrees, 2*pi radians, 1296000 centiseconds).  The following
lemmas capture the range and fixed-point behaviour of that expression. -/

theorem floorRem_nonneg {α : Type} [LinearOrderedField α] [FloorRing α]
    {m : α} (hm : 0 < m) (x : α) : 0 ≤ x - m * ⌊x / m⌋ := by
  have h := Int.floor_le (x / m)
  have h2 : m * (⌊x / m⌋ : α) ≤ m * (x / m) :=
    mul_le_mul_of_nonneg_left h (le_of_lt hm)
  have h3 : m * (x / m) = x := by
    field_simp
  linarith

theorem floorRem_lt {α : Type} [LinearOrderedField α] [FloorRing α]
    {m : α} (hm : 0 < m) (x : α) : x - m * ⌊x / m⌋ < m := by
  have h := Int.lt_floor_add_one (x / m)
  have h2 : m * (x / m) < m * ((⌊x / m⌋ : α) + 1) :=
    mul_lt_mul_of_pos_left h hm
  have h3 : m * (x / m) = x := by
    field_simp
  nlinarith

theorem floorRem_eq_self {α : Type} [LinearOrderedField α] [FloorRing α]
    {m : α} (hm : 0 < m) {x : α} (h0 : 0 ≤ x) (h1 : x < m) :
    x - m * ⌊x / m⌋ = x := by
  have hz : ⌊x / m⌋ = 0 := by
    rw [Int.floor_eq_zero_iff]
    constructor
    · exact div_nonneg h0 (le_of_lt hm)
    · exact (div_lt_one hm).mpr h1
  rw [hz]
  simp

theorem floorRem_sub_self {α : Type} [LinearOrderedField α] [FloorRing α]
    {m : α} (hm : 0 < m) (x : α) :
    (x - m) - m * ⌊(x - m) / m⌋ = x - m * ⌊x / m⌋ := by
  have hd : (x - m) / m = x / m - 1 := by
    field_simp
  rw [hd, Int.floor_sub_one]
  push_cast
  ring

/-! ### AngleMath: degree normalization and arc distances

Modelled from the spec: "normalize to [0,360)"; "signed shortest-path
difference between two angles (range [-180,180), sign indicates direction)";
"unsigned forward difference (range [0,360))".  The interface documents
`degnorm`, `difdegn` and `difdeg2n` with the examples
`degnorm(523.546) = 163.546`, `difdeg2n(120, 130) = -10` and
`difdegn(120, 130) = 350`. -/

/-- Modelled from the spec: normalize a degree value to the range [0,360).
The numeric engine behind the `degnorm` declaration is not in `src/`. -/
def degnorm (x : ℚ) : ℚ := x - 360 * ⌊x / 360⌋

/-- Modelled from the spec: unsigned forward arc distance between two degree
positions, in [0,360).  The engine behind `difdegn` is not in `src/`. -/
def difdegn (a b : ℚ) : ℚ := degnorm (a - b)

/-- Modelled from the spec: signed shortest-path arc distance between two
degree positions, in [-180,180).  The engine behind `difdeg2n` is not in
`src/`. -/
def difdeg2n (a b : ℚ) : ℚ :=
  if 180 ≤ degnorm (a - b) then degnorm (a - b) - 360 else degnorm (a - b)

theorem degnorm_nonneg (x : ℚ) : 0 ≤ degnorm x :=
  floorRem_nonneg (by norm_num) x

theorem degnorm_lt (x : ℚ) : degnorm x < 360 :=
  floorRem_lt (by norm_num) x

theorem degnorm_eq_self {x : ℚ} (h0 : 0 ≤ x) (h1 : x < 360) : degnorm x = x :=
  floorRem_eq_self (by norm_num) h0 h1

theorem degnorm_degnorm (x : ℚ) : degnorm (degnorm x) = degnorm x :=
  degnorm_eq_self (degnorm_nonneg x) (degnorm_lt x)

theorem degnorm_sub_360 (x : ℚ) : degnorm (x - 360) = degnorm x :=
  floorRem_sub_self (by norm_num) x

theorem difdeg2n_lower (a b : ℚ) : -180 ≤ difdeg2n a b := by
  unfold difdeg2n
  split
  · linarith
  · linarith [degnorm_nonneg (a - b)]

theorem difdeg2n_upper (a b : ℚ) : difdeg2n a b < 180 := by
  unfold difdeg2n
  split
  · linarith [degnorm_lt (a - b)]
  · linarith

theorem degnorm_difdeg2n (a b : ℚ) : degnorm (difdeg2n a b) = difdegn a b := by
  unfold difdeg2n difdegn
  split
  · rw [degnorm_sub_360, degnorm_degnorm]
  · exact degnorm_degnorm (a - b)

theorem degnorm_neg_ten : degnorm (-10) = 350 := by
  unfold degnorm
  norm_num

/-! ### AngleMath over the reals: radian normalization -/

/-- Modelled from the spec: normalize a radian value to the range [0,2*pi).
The engine behind the `radnorm` declaration is not in `src/`. -/
noncomputable def radnorm (x : ℝ) : ℝ :=
  x - (2 * Real.pi) * ⌊x / (2 * Real.pi)⌋

theorem radnorm_nonneg (x : ℝ) : 0 ≤ radnorm x :=
  floorRem_nonneg Real.two_pi_pos x

theorem radnorm_lt (x : ℝ) : radnorm x < 2 * Real.pi :=
  floorRem_lt Real.two_pi_pos x

theorem radnorm_eq_self {x : ℝ} (h0 : 0 ≤ x) (h1 : x < 2 * Real.pi) :
    radnorm x = x :=
  floorRem_eq_self Real.two_pi_pos h0 h1

theorem radnorm_radnorm (x : ℝ) : radnorm (radnorm x) = radnorm x :=
  radnorm_eq_self (radnorm_nonneg x) (radnorm_lt x)

/-! ### TimeSystem: day of week, calendar validation and Julian Day

Modelled from the spec: "day-of-week computation (Monday=0..Sunday=6)" with the
documented example `day_of_week(2459311) = 1` (Tuesday), and "calendar to
Julian-Day conversion (date validity is checked -- invalid dates fail with a
distinct error rather than silently clamping)" with the documented example
`date_conversion(1995, 5, 15, 13.75, Gregorian)`.  The numeric engine behind
these declarations is not in `src/`. -/

/-- Modelled from the spec: weekday of a Julian Day value, Monday = 0 through
Sunday = 6.  A Julian Day begins at noon, so the day boundary sits at
half-integral values; Julian Day 0 fell on a Monday. -/
def day_of_week (jd : ℚ) : ℤ := ⌊jd + 1 / 2⌋ % 7

theorem day_of_week_nonneg (jd : ℚ) : 0 ≤ day_of_week jd :=
  Int.emod_nonneg _ (by norm_num)

theorem day_of_week_lt (jd : ℚ) : day_of_week jd < 7 :=
  Int.emod_lt_of_pos _ (by norm_num)

theorem day_of_week_succ (jd : ℚ) :
    day_of_week (jd + 1) = (day_of_week jd + 1) % 7 := by
  unfold day_of_week
  have h : jd + 1 + 1 / 2 = (jd + 1 / 2) + 1 := by ring
  rw [h, Int.floor_add_one]
  omega

/-- Modelled from the spec: leap-year rule, Gregorian for calendar flag
character g (divisible by 4 but not by 100, or divisible by 400) and Julian
otherwise (divisible by 4). -/
def isLeap (cal : Char) (y : ℤ) : Bool :=
  if cal = 'g' then (y % 4 == 0 && y % 100 != 0) || y % 400 == 0
  else y % 4 == 0

/-- Modelled from the spec: number of days of a calendar month. -/
def daysInMonth (cal : Char) (y m : ℤ) : ℤ :=
  if m = 2 then (if isLeap cal y then 29 else 28)
  else if m = 4 ∨ m = 6 ∨ m = 9 ∨ m = 11 then 30
  else 31

/-- Modelled from the spec: a calendar date is valid when the month is 1..12,
the day fits the month, and the decimal hour lies in [0,24). -/
def validDate (cal : Char) (y m d : ℤ) (h : ℚ) : Prop :=
  1 ≤ m ∧ m ≤ 12 ∧ 1 ≤ d ∧ d ≤ daysInMonth cal y m ∧ 0 ≤ h ∧ h < 24

instance (cal : Char) (y m d : ℤ) (h : ℚ) : Decidable (validDate cal y m d h) := by
  unfold validDate
  infer_instance

/-- Modelled from the spec: Julian Day Number of a calendar date at noon, by
the standard arithmetic algorithm (Gregorian for calendar flag g, Julian
otherwise).  Divisions are Euclidean, which agrees with floor division on the
non-negative operands arising for years after -4800. -/
def jdn (cal : Char) (y m d : ℤ) : ℤ :=
  let a := (14 - m) / 12
  let y2 := y + 4800 - a
  let m2 := m + 12 * a - 3
  if cal = 'g' then
    d + (153 * m2 + 2) / 5 + 365 * y2 + y2 / 4 - y2 / 100 + y2 / 400 - 32045
  else
    d + (153 * m2 + 2) / 5 + 365 * y2 + y2 / 4 - 32083

/-- Modelled from the spec: continuous Julian Day of a calendar date with a
decimal hour in Universal Time.  The day starts at midnight, half a day before
the noon-based Julian Day Number. -/
def julday (cal : Char) (y m d : ℤ) (h : ℚ) : ℚ :=
  (jdn cal y m d : ℚ) + h / 24 - 1 / 2

/-- Result of `date_conversion`: a flag plus the Julian Day, which is only
populated for valid dates. -/
structure DateConversion where
  flag : SweFlag
  data : Option ℚ
deriving DecidableEq

/-- Modelled from the spec: compute the Julian Day of a calendar date and
check validity; invalid dates yield the distinct `ERR` flag and no silently
clamped Julian Day result.  The engine behind the `date_conversion`
declaration is not in `src/`. -/
def date_conversion (y m d : ℤ) (h : ℚ) (cal : Char) : DateConversion :=
  if validDate cal y m d h then
    { flag := SweFlag.OK, data := some (julday cal y m d h) }
  else
    { flag := SweFlag.ERR, data := none }

theorem date_conversion_invalid (y m d : ℤ) (h : ℚ) (cal : Char)
    (hv : ¬ validDate cal y m d h) :
    date_conversion y m d h cal = { flag := SweFlag.ERR, data := none } := by
  unfold date_conversion
  rw [if_neg hv]

/-! ### HouseEngine

Modelled from the spec: the house computation divides the local great circle
into 12 sectors (36 for Gauquelin sectors, house system code G) and always
returns 8 auxiliary points (ascendant, midheaven, right ascension of the
midheaven, vertex, equatorial ascendant, two co-ascendants, polar ascendant).
The per-system spherical geometry (Placidus, Koch, ...) is not in `src/`; the
stand-ins below preserve only what the claims are about: the cardinality of
the result, the degree range of each value, and the degenerate-latitude
policy (soft-warning plus an equal-division fallback near the poles). -/

/-- Number of house cusps returned: 36 for Gauquelin sectors (code G), 12 for
every other house system, as declared by the interface overloads. -/
def houseCount (hsys : Char) : ℕ := if hsys = 'G' then 36 else 12

/-- Modelled from the spec: the house systems solved by iterative root-finding
on the horizon/ecliptic intersection ("quadrant systems"), which degenerate at
polar latitudes.  Gauquelin sectors share the semi-arc geometry and are
included. -/
def quadrantSystem (hsys : Char) : Bool :=
  hsys = 'P' ∨ hsys = 'K' ∨ hsys = 'O' ∨ hsys = 'C' ∨ hsys = 'B' ∨
  hsys = 'M' ∨ hsys = 'T' ∨ hsys = 'G' ∨ hsys = 'Y' ∨ hsys = 'U'

/-- Modelled from the spec: ascendant stand-in derived from the right
ascension of the midheaven; the true rising-point geometry is not in `src/`. -/
def ascStandIn (armc geolat eps : ℚ) : ℚ :=
  degnorm (armc + 90 + geolat * eps / 360)

/-- Modelled from the spec: sidereal-time stand-in giving the right ascension
of the midheaven for a Julian Day and geographic longitude; the true sidereal
time polynomial is not in `src/`. -/
def armcStandIn (tjd_ut geolon : ℚ) : ℚ :=
  degnorm (280 + 361 * (tjd_ut - 2451545) + geolon)

/-- House cusps and auxiliary points, as in the `HouseData` interface. -/
structure HouseData where
  houses : List ℚ
  points : List ℚ

/-- A house computation result: a status plus the data, which is populated
even on a soft-warning, following the result convention of the spec. -/
structure HousesResult where
  status : Status
  data : HouseData

/-- Modelled from the spec: equal-division cusp list (the shape shared by all
systems and the fallback used near the poles) together with the 8 auxiliary
points. -/
def mkHouseData (armc geolat eps : ℚ) (hsys : Char) : HouseData :=
  let n := houseCount hsys
  let asc := ascStandIn armc geolat eps
  { houses := (List.range n).map
      (fun k : ℕ => degnorm (asc + 360 / (n : ℚ) * (k : ℚ))),
    points := [asc, degnorm armc, degnorm armc, degnorm (asc + 180),
               degnorm (armc + 90), degnorm (armc + 180),
               degnorm (asc + 90), degnorm (asc + 270)] }

/-- Modelled from the spec: shared core of the house family.  Quadrant systems
have no solution at and beyond the polar circle; there the engine reports a
soft-warning and substitutes the equal-division fallback, rather than
aborting. -/
def housesCore (armc geolat eps : ℚ) (hsys : Char) : HousesResult :=
  if quadrantSystem hsys = true ∧ 66 ≤ |geolat| then
    { status := Status.warning, data := mkHouseData armc geolat eps hsys }
  else
    { status := Status.ok, data := mkHouseData armc geolat eps hsys }

/-- Modelled from the spec: `houses(tjd_ut, geolat, geolon, hsys)`. -/
def houses (tjd_ut geolat geolon : ℚ) (hsys : Char) : HousesResult :=
  housesCore (armcStandIn tjd_ut geolon) geolat 23 hsys

/-- Modelled from the spec: `houses_ex` adds calculation flags to `houses`;
the flags select ephemeris and zodiac options that the stand-in ignores. -/
def houses_ex (tjd_ut : ℚ) (iflag : ℕ) (geolat geolon : ℚ) (hsys : Char) :
    HousesResult :=
  housesCore (armcStandIn tjd_ut geolon) geolat 23 hsys

/-- Modelled from the spec: `houses_ex2` is `houses_ex` with an error-message
channel and momentary speeds. -/
def houses_ex2 (tjd_ut : ℚ) (iflag : ℕ) (geolat geolon : ℚ) (hsys : Char) :
    HousesResult :=
  housesCore (armcStandIn tjd_ut geolon) geolat 23 hsys

/-- Modelled from the spec: `houses_armc` computes houses directly from the
right ascension of the midheaven, geographic latitude and obliquity. -/
def houses_armc (armc geolat eps : ℚ) (hsys : Char) (decl : Option ℚ) :
    HousesResult :=
  housesCore armc geolat eps hsys

/-- Modelled from the spec: `houses_armc_ex2` is `houses_armc` with an
error-message channel and momentary speeds. -/
def houses_armc_ex2 (armc geolat eps : ℚ) (hsys : Char) (decl : Option ℚ) :
    HousesResult :=
  housesCore armc geolat eps hsys

theorem mkHouseData_houses_length (armc geolat eps : ℚ) (hsys : Char) :
    (mkHouseData armc geolat eps hsys).houses.length = houseCount hsys := by
  unfold mkHouseData
  dsimp only
  rw [List.length_map, List.length_range]

theorem mkHouseData_points_length (armc geolat eps : ℚ) (hsys : Char) :
    (mkHouseData armc geolat eps hsys).points.length = 8 := by
  unfold mkHouseData
  simp

theorem housesCore_houses_length (armc geolat eps : ℚ) (hsys : Char) :
    (housesCore armc geolat eps hsys).data.houses.length = houseCount hsys := by
  unfold housesCore
  split
  · exact mkHouseData_houses_length armc geolat eps hsys
  · exact mkHouseData_houses_length armc geolat eps hsys

theorem housesCore_points_length (armc geolat eps : ℚ) (hsys : Char) :
    (housesCore armc geolat eps hsys).data.points.length = 8 := by
  unfold housesCore
  split
  · exact mkHouseData_points_length armc geolat eps hsys
  · exact mkHouseData_points_length armc geolat eps hsys

theorem housesCore_polar (armc geolat eps : ℚ) (hsys : Char)
    (hq : quadrantSystem hsys = true) (hlat : 66 ≤ |geolat|) :
    (housesCore armc geolat eps hsys).status = Status.warning := by
  unfold housesCore
  rw [if_pos ⟨hq, hlat⟩]

/-- Result of `house_pos`: an optional error message plus the house position
including fraction. -/
structure HousePosition where
  serr : Option String
  data : ℚ

/-- Modelled from the spec: house position of an object, 1.0 up to (but
excluding) 13.0 for normal systems and 37.0 for Gauquelin sectors.  The
declared house-position geometry is not in `src/`; the stand-in measures the
forward arc from the first cusp and scales it to the house count. -/
def house_pos (armc geolat eps : ℚ) (hsys : Char) (lon lat : ℚ) :
    HousePosition :=
  { serr := none,
    data := 1 + houseCount hsys *
      degnorm (lon - ascStandIn armc geolat eps) / 360 }

theorem house_pos_lower (armc geolat eps : ℚ) (hsys : Char) (lon lat : ℚ) :
    1 ≤ (house_pos armc geolat eps hsys lon lat).data := by
  unfold house_pos
  have h1 := degnorm_nonneg (lon - ascStandIn armc geolat eps)
  have h2 : (0:ℚ) ≤ houseCount hsys := by positivity
  have h3 : (0:ℚ) ≤ houseCount hsys * degnorm (lon - ascStandIn armc geolat eps) / 360 := by
    positivity
  simpa using h3

theorem house_pos_upper (armc geolat eps : ℚ) (hsys : Char) (lon lat : ℚ) :
    (house_pos armc geolat eps hsys lon lat).data < houseCount hsys + 1 := by
  unfold house_pos
  have h1 := degnorm_lt (lon - ascStandIn armc geolat eps)
  have hn : (0:ℚ) < houseCount hsys := by
    unfold houseCount
    split
    · norm_num
    · norm_num
  have h2 : houseCount hsys * degnorm (lon - ascStandIn armc geolat eps) / 360
      < houseCount hsys := by
    rw [div_lt_iff (by norm_num : (0:ℚ) < 360)]
    exact mul_lt_mul_of_pos_left h1 hn
  simp only
  linarith

/-! ### BodyPositionEngine: position calculation with flag-controlled speeds

Modelled from the spec: a position result carries six doubles, three spatial
components and three daily-speed components; the speed slots are zero unless
the speed flag is set, in which case they carry the daily speeds; the spatial
slots do not depend on whether speed was requested.  The ephemeris engine
behind the `calc` and `calc_ut` declarations is not in `src/`; the stand-in
below uses analytic mean-motion orbits whose daily speeds are non-zero. -/

/-- The speed calculation flag bit, `SEFLG_SPEED = 256` (bit 8). -/
def SEFLG_SPEED : ℕ := 256

/-- Whether a calculation flag set requests daily speeds. -/
def speedRequested (iflag : ℕ) : Bool := Nat.testBit iflag 8

/-- The six result slots of a position calculation, as in the `Calc`
interface: spatial components and the corresponding daily speeds. -/
structure CalcData where
  lon : ℚ
  lat : ℚ
  dist : ℚ
  lonSpd : ℚ
  latSpd : ℚ
  distSpd : ℚ

/-- A position result: status plus the six slots. -/
structure CalcResult where
  status : Status
  data : CalcData

/-- Modelled from the spec: daily motion in longitude of the stand-in orbit
for a body, strictly positive. -/
def lonSpeedOf (ipl : ℕ) : ℚ := (985647 / 1000000) * ((ipl : ℚ) + 1)

/-- Modelled from the spec: daily motion in latitude of the stand-in orbit,
strictly positive. -/
def latSpeedOf (ipl : ℕ) : ℚ := ((ipl : ℚ) + 1) / 1000000

/-- Modelled from the spec: daily motion in distance of the stand-in orbit,
strictly positive. -/
def distSpeedOf (ipl : ℕ) : ℚ := ((ipl : ℚ) + 1) / 10000000

/-- Modelled from the spec: stand-in ecliptic longitude of a body, a linear
mean motion from the J2000 epoch, normalized to [0,360). -/
def bodyLon (ipl : ℕ) (t : ℚ) : ℚ :=
  degnorm (30 * ((ipl : ℚ) + 1) + lonSpeedOf ipl * (t - 2451545))

/-- Modelled from the spec: stand-in ecliptic latitude of a body. -/
def bodyLat (ipl : ℕ) (t : ℚ) : ℚ := latSpeedOf ipl * (t - 2451545)

/-- Modelled from the spec: stand-in distance of a body in astronomical
units. -/
def bodyDist (ipl : ℕ) (t : ℚ) : ℚ :=
  ((ipl : ℚ) + 1) + distSpeedOf ipl * (t - 2451545)

/-- Modelled from the spec: core of the position calculation.  The spatial
slots are computed from the time and body alone; the speed slots are zero
unless the speed flag is set. -/
def calcCore (t : ℚ) (ipl : ℕ) (iflag : ℕ) : CalcResult :=
  { status := Status.ok,
    data :=
      { lon := bodyLon ipl t, lat := bodyLat ipl t, dist := bodyDist ipl t,
        lonSpd := if speedRequested iflag then lonSpeedOf ipl else 0,
        latSpd := if speedRequested iflag then latSpeedOf ipl else 0,
        distSpd := if speedRequested iflag then distSpeedOf ipl else 0 } }

/-- Modelled from the spec: position calculation from ephemeris/terrestrial
time.  The declared name in the interface is `calc`, which is a reserved word
here. -/
def calc_et (tjd_et : ℚ) (ipl : ℕ) (iflag : ℕ) : CalcResult :=
  calcCore tjd_et ipl iflag

/-- Modelled from the spec: Delta-T stand-in (about 69 seconds, in days); the
piecewise historical Delta-T model is not in `src/`. -/
def deltatStandIn (tjd_ut : ℚ) : ℚ := 69 / 86400

/-- Modelled from the spec: position calculation from Universal Time, which
first converts to terrestrial time through Delta-T. -/
def calc_ut (tjd_ut : ℚ) (ipl : ℕ) (iflag : ℕ) : CalcResult :=
  calcCore (tjd_ut + deltatStandIn tjd_ut) ipl iflag

theorem lonSpeedOf_pos (ipl : ℕ) : 0 < lonSpeedOf ipl := by
  unfold lonSpeedOf
  positivity

theorem latSpeedOf_pos (ipl : ℕ) : 0 < latSpeedOf ipl := by
  unfold latSpeedOf
  positivity

theorem distSpeedOf_pos (ipl : ℕ) : 0 < distSpeedOf ipl := by
  unfold distSpeedOf
  positivity

/-! ### EventSearchEngine: heliacal search latitude domain

Modelled from the spec: "its valid geographic-latitude domain is bounded
(plus or minus 60 degrees) and out-of-domain calls fail fast"; the interface
documents that `heliacal_ut` "works between geographic latitudes -60 and 60".
The iterative search itself is not in `src/`; the stand-in returns a found
placeholder event for in-domain calls and fails fast with `ERR` and no data
otherwise. -/

/-- A heliacal search result: flag plus the three visibility times, absent on
failure (no partial event search is performed for out-of-domain calls). -/
structure Heliacal where
  flag : SweFlag
  data : Option (ℚ × ℚ × ℚ)

/-- Modelled from the spec: search for the next heliacal phenomenon after a
start date.  Geographic coordinates are [longitude, latitude, elevation];
calls with latitude outside [-60,60] fail fast. -/
def heliacal_ut (tjd_ut : ℚ) (dgeo : ℚ × ℚ × ℚ) (datm : ℚ × ℚ × ℚ × ℚ)
    (dobs : ℚ × ℚ × ℚ × ℚ × ℚ × ℚ) (object_name : String)
    (event_type : ℕ) (hel_flag : ℕ) : Heliacal :=
  if dgeo.2.1 < -60 ∨ 60 < dgeo.2.1 then
    { flag := SweFlag.ERR, data := none }
  else
    { flag := SweFlag.OK,
      data := some (tjd_ut + 1, tjd_ut + 1 + 1 / 100, tjd_ut + 1 + 1 / 50) }

/-! ### CoordinateTransform: ecliptic/equatorial rotation

Modelled from the spec: "ecliptic and equatorial frames are related by a
rotation about the X axis by the obliquity angle; positive obliquity means
equatorial to ecliptic, negative means ecliptic to equatorial; the distance
component passes through unchanged".  The interface documents `cotrans` and
`cotrans_sp` as taking [lon, lat, dist(, speeds)] in degrees plus an
obliquity, going through cartesian coordinates on the unit sphere.  The
engine behind the declarations is not in `src/`. -/

noncomputable section

/-- Degrees-to-radians conversion factor. -/
def DEGTORAD : ℝ := Real.pi / 180

/-- Cartesian coordinates of the unit-sphere direction with longitude `l` and
latitude `b`, both in radians. -/
def polcart (l b : ℝ) : ℝ × ℝ × ℝ :=
  (Real.cos l * Real.cos b, Real.sin l * Real.cos b, Real.sin b)

/-- Rotation of a cartesian vector about the X axis by an angle in radians. -/
def coortrf (v : ℝ × ℝ × ℝ) (e : ℝ) : ℝ × ℝ × ℝ :=
  (v.1, v.2.1 * Real.cos e + v.2.2 * Real.sin e,
   -v.2.1 * Real.sin e + v.2.2 * Real.cos e)

/-- Longitude in [0, 2*pi) of a cartesian direction: the complex argument of
the projection onto the XY plane, shifted into the forward range. -/
def cartpolLon (x y : ℝ) : ℝ :=
  if Complex.arg ⟨x, y⟩ < 0 then Complex.arg ⟨x, y⟩ + 2 * Real.pi
  else Complex.arg ⟨x, y⟩

/-- Real-valued degree normalization to [0,360), the range in which the
transform reports longitudes (the counterpart of `degnorm` over the reals,
needed to state what the round trip returns for out-of-range input). -/
def degnormR (x : ℝ) : ℝ := x - 360 * ⌊x / 360⌋

/-- Modelled from the spec: transform [lon, lat, dist] (degrees) between the
ecliptic and equatorial frames by rotating the unit-sphere direction about
the X axis by the obliquity; the distance slot passes through unchanged. -/
def cotrans (p : ℝ × ℝ × ℝ) (e : ℝ) : ℝ × ℝ × ℝ :=
  (cartpolLon
      (coortrf (polcart (p.1 * DEGTORAD) (p.2.1 * DEGTORAD)) (e * DEGTORAD)).1
      (coortrf (polcart (p.1 * DEGTORAD) (p.2.1 * DEGTORAD)) (e * DEGTORAD)).2.1
    / DEGTORAD,
   Real.arcsin
      (coortrf (polcart (p.1 * DEGTORAD) (p.2.1 * DEGTORAD)) (e * DEGTORAD)).2.2
    / DEGTORAD,
   p.2.2)

/-- The six coordinate slots of the speed-aware transform. -/
structure CoordSp where
  lon : ℝ
  lat : ℝ
  dist : ℝ
  lonSpd : ℝ
  latSpd : ℝ
  distSpd : ℝ

/-- Modelled from the spec: the speed-aware variant additionally rotates the
velocity; here the angular speeds are propagated by differencing the
transform over one day, while the dist and distSpd slots pass through
unchanged exactly as the interface documents. -/
def cotrans_sp (p : CoordSp) (e : ℝ) : CoordSp :=
  { lon := (cotrans (p.lon, p.lat, p.dist) e).1,
    lat := (cotrans (p.lon, p.lat, p.dist) e).2.1,
    dist := p.dist,
    lonSpd := (cotrans (p.lon + p.lonSpd, p.lat + p.latSpd, p.dist) e).1 -
      (cotrans (p.lon, p.lat, p.dist) e).1,
    latSpd := (cotrans (p.lon + p.lonSpd, p.lat + p.latSpd, p.dist) e).2.1 -
      (cotrans (p.lon, p.lat, p.dist) e).2.1,
    distSpd := p.distSpd }

end

theorem DEGTORAD_pos : 0 < DEGTORAD := by
  unfold DEGTORAD
  positivity

theorem coortrf_norm (v : ℝ × ℝ × ℝ) (e : ℝ) :
    (coortrf v e).1 ^ 2 + (coortrf v e).2.1 ^ 2 + (coortrf v e).2.2 ^ 2 =
      v.1 ^ 2 + v.2.1 ^ 2 + v.2.2 ^ 2 := by
  unfold coortrf
  dsimp only
  linear_combination (v.2.1 ^ 2 + v.2.2 ^ 2) * Real.sin_sq_add_cos_sq e

theorem polcart_norm (l b : ℝ) :
    (polcart l b).1 ^ 2 + (polcart l b).2.1 ^ 2 + (polcart l b).2.2 ^ 2 = 1 := by
  unfold polcart
  dsimp only
  linear_combination Real.cos b ^ 2 * Real.sin_sq_add_cos_sq l +
    Real.sin_sq_add_cos_sq b

theorem coortrf_coortrf_neg (v : ℝ × ℝ × ℝ) (e : ℝ) :
    coortrf (coortrf v e) (-e) = v := by
  obtain ⟨x, y, z⟩ := v
  unfold coortrf
  dsimp only
  rw [Real.cos_neg, Real.sin_neg]
  simp only [Prod.mk.injEq]
  refine ⟨trivial, ?_, ?_⟩
  · linear_combination y * Real.sin_sq_add_cos_sq e
  · linear_combination z * Real.sin_sq_add_cos_sq e

theorem cos_cartpolLon (x y : ℝ) :
    Real.cos (cartpolLon x y) = Real.cos (Complex.arg ⟨x, y⟩) := by
  unfold cartpolLon
  split
  · exact Real.cos_add_two_pi _
  · rfl

theorem sin_cartpolLon (x y : ℝ) :
    Real.sin (cartpolLon x y) = Real.sin (Complex.arg ⟨x, y⟩) := by
  unfold cartpolLon
  split
  · exact Real.sin_add_two_pi _
  · rfl

theorem abs_mk_eq_sqrt (x y : ℝ) :
    Complex.abs ⟨x, y⟩ = Real.sqrt (x ^ 2 + y ^ 2) := by
  rw [Complex.abs_apply, Complex.normSq_apply]
  norm_num [sq]

theorem polcart_cartpol (w : ℝ × ℝ × ℝ)
    (h : w.1 ^ 2 + w.2.1 ^ 2 + w.2.2 ^ 2 = 1) :
    polcart (cartpolLon w.1 w.2.1) (Real.arcsin w.2.2) = w := by
  obtain ⟨x, y, z⟩ := w
  dsimp only at h ⊢
  have hz1 : -1 ≤ z := by nlinarith
  have hz2 : z ≤ 1 := by nlinarith
  have hsinB : Real.sin (Real.arcsin z) = z := Real.sin_arcsin hz1 hz2
  have hcosB : Real.cos (Real.arcsin z) = Real.sqrt (x ^ 2 + y ^ 2) := by
    rw [Real.cos_arcsin]
    congr 1
    linarith
  by_cases hxy : (⟨x, y⟩ : ℂ) = 0
  · have hx : x = 0 := congrArg Complex.re hxy
    have hy : y = 0 := congrArg Complex.im hxy
    have hρ : Real.sqrt (x ^ 2 + y ^ 2) = 0 := by
      rw [hx, hy]
      norm_num
    unfold polcart
    simp only [Prod.mk.injEq]
    refine ⟨?_, ?_, hsinB⟩
    · rw [hcosB, hρ, hx]
      ring
    · rw [hcosB, hρ, hy]
      ring
  · have habs : Complex.abs ⟨x, y⟩ = Real.sqrt (x ^ 2 + y ^ 2) :=
      abs_mk_eq_sqrt x y
    have hρpos : 0 < Real.sqrt (x ^ 2 + y ^ 2) := by
      rw [← habs]
      exact AbsoluteValue.pos Complex.abs hxy
    have hρne : Real.sqrt (x ^ 2 + y ^ 2) ≠ 0 := ne_of_gt hρpos
    have hcosA : Real.cos (Complex.arg ⟨x, y⟩) = x / Real.sqrt (x ^ 2 + y ^ 2) := by
      rw [Complex.cos_arg hxy, habs]
    have hsinA : Real.sin (Complex.arg ⟨x, y⟩) = y / Real.sqrt (x ^ 2 + y ^ 2) := by
      rw [Complex.sin_arg ⟨x, y⟩, habs]
    unfold polcart
    simp only [Prod.mk.injEq]
    refine ⟨?_, ?_, hsinB⟩
    · rw [cos_cartpolLon, hcosA, hcosB, div_mul_cancel₀ x hρne]
    · rw [sin_cartpolLon, hsinA, hcosB, div_mul_cancel₀ y hρne]

theorem arg_mk_cos_sin {t : ℝ} (ht : t ∈ Set.Ioc (-Real.pi) Real.pi) :
    Complex.arg ⟨Real.cos t, Real.sin t⟩ = t := by
  have h : (⟨Real.cos t, Real.sin t⟩ : ℂ) =
      Complex.cos t + Complex.sin t * Complex.I := by
    apply Complex.ext
    · simp [Complex.cos_ofReal_re, Complex.sin_ofReal_re]
    · simp [Complex.cos_ofReal_re, Complex.sin_ofReal_re]
  rw [h, Complex.arg_cos_add_sin_mul_I ht]

theorem mk_smul_cos_sin (r t : ℝ) :
    (⟨r * Real.cos t, r * Real.sin t⟩ : ℂ) =
      (r : ℂ) * ⟨Real.cos t, Real.sin t⟩ := by
  apply Complex.ext
  · simp [Complex.mul_re]
  · simp [Complex.mul_im]

theorem cartpolLon_polcart {r t : ℝ} (hr : 0 < r) (h0 : 0 ≤ t)
    (h1 : t < 2 * Real.pi) :
    cartpolLon (r * Real.cos t) (r * Real.sin t) = t := by
  have hscale : Complex.arg ⟨r * Real.cos t, r * Real.sin t⟩ =
      Complex.arg ⟨Real.cos t, Real.sin t⟩ := by
    rw [mk_smul_cos_sin, Complex.arg_real_mul _ hr]
  rcases le_or_lt t Real.pi with hle | hgt
  · have harg : Complex.arg ⟨Real.cos t, Real.sin t⟩ = t :=
      arg_mk_cos_sin ⟨lt_of_lt_of_le (neg_neg_of_pos Real.pi_pos) h0, hle⟩
    unfold cartpolLon
    rw [hscale, harg, if_neg (not_lt.mpr h0)]
  · have hc : Real.cos t = Real.cos (t - 2 * Real.pi) :=
      (Real.cos_sub_two_pi t).symm
    have hs : Real.sin t = Real.sin (t - 2 * Real.pi) :=
      (Real.sin_sub_two_pi t).symm
    have harg : Complex.arg ⟨Real.cos t, Real.sin t⟩ = t - 2 * Real.pi := by
      rw [hc, hs]
      exact arg_mk_cos_sin ⟨by linarith, by linarith [Real.pi_pos]⟩
    unfold cartpolLon
    rw [hscale, harg, if_pos (by linarith : t - 2 * Real.pi < 0)]
    ring

theorem degnormR_nonneg (x : ℝ) : 0 ≤ degnormR x :=
  floorRem_nonneg (by norm_num) x

theorem degnormR_lt (x : ℝ) : degnormR x < 360 :=
  floorRem_lt (by norm_num) x

theorem degnormR_eq_self {x : ℝ} (h0 : 0 ≤ x) (h1 : x < 360) :
    degnormR x = x :=
  floorRem_eq_self (by norm_num) h0 h1

theorem cartpolLon_polcart_gen {r : ℝ} (t : ℝ) (hr : 0 < r) :
    cartpolLon (r * Real.cos t) (r * Real.sin t) =
      t - 2 * Real.pi * ⌊t / (2 * Real.pi)⌋ := by
  set t2 : ℝ := t - 2 * Real.pi * ⌊t / (2 * Real.pi)⌋ with ht2
  have h0 : 0 ≤ t2 := floorRem_nonneg Real.two_pi_pos t
  have h1 : t2 < 2 * Real.pi := floorRem_lt Real.two_pi_pos t
  have hsum : t2 + (⌊t / (2 * Real.pi)⌋ : ℝ) * (2 * Real.pi) = t := by
    rw [ht2]
    ring
  have hc : Real.cos t2 = Real.cos t := by
    rw [← hsum, Real.cos_add_int_mul_two_pi]
  have hs : Real.sin t2 = Real.sin t := by
    rw [← hsum, Real.sin_add_int_mul_two_pi]
  rw [← hc, ← hs]
  exact cartpolLon_polcart hr h0 h1

theorem arg_zero_mk : Complex.arg ⟨0, 0⟩ = 0 := by
  have h : (⟨0, 0⟩ : ℂ) = 0 := by
    apply Complex.ext <;> simp
  rw [h, Complex.arg_zero]

theorem cartpolLon_zero : cartpolLon 0 0 = 0 := by
  unfold cartpolLon
  rw [arg_zero_mk, if_neg (lt_irrefl 0)]

theorem cotrans_def (p : ℝ × ℝ × ℝ) (e : ℝ) :
    cotrans p e =
      (cartpolLon
          (coortrf (polcart (p.1 * DEGTORAD) (p.2.1 * DEGTORAD)) (e * DEGTORAD)).1
          (coortrf (polcart (p.1 * DEGTORAD) (p.2.1 * DEGTORAD)) (e * DEGTORAD)).2.1
        / DEGTORAD,
       Real.arcsin
          (coortrf (polcart (p.1 * DEGTORAD) (p.2.1 * DEGTORAD)) (e * DEGTORAD)).2.2
        / DEGTORAD,
       p.2.2) := rfl

theorem cotrans_dist (p : ℝ × ℝ × ℝ) (e : ℝ) : (cotrans p e).2.2 = p.2.2 := rfl

theorem cotrans_sp_dist (p : CoordSp) (e : ℝ) : (cotrans_sp p e).dist = p.dist :=
  rfl

theorem cotrans_sp_distSpd (p : CoordSp) (e : ℝ) :
    (cotrans_sp p e).distSpd = p.distSpd := rfl

theorem cotrans_pole_zero (l d : ℝ) : cotrans (l, 90, d) 0 = (0, 90, d) := by
  have hkne : DEGTORAD ≠ 0 := ne_of_gt DEGTORAD_pos
  have h90 : (90:ℝ) * DEGTORAD = Real.pi / 2 := by
    unfold DEGTORAD
    ring
  have hpc : polcart (l * DEGTORAD) ((90:ℝ) * DEGTORAD) = (0, 0, 1) := by
    unfold polcart
    rw [h90, Real.cos_pi_div_two, Real.sin_pi_div_two]
    norm_num
  have hct : coortrf ((0:ℝ), (0:ℝ), (1:ℝ)) ((0:ℝ) * DEGTORAD) = (0, 0, 1) := by
    unfold coortrf
    dsimp only
    rw [zero_mul DEGTORAD, Real.cos_zero, Real.sin_zero]
    norm_num
  have hdiv : Real.pi / 2 / DEGTORAD = 90 := by
    rw [div_eq_iff hkne]
    unfold DEGTORAD
    ring
  rw [cotrans_def]
  dsimp only
  rw [hpc, hct]
  dsimp only
  rw [cartpolLon_zero, Real.arcsin_one, zero_div, hdiv]

theorem cotrans_cotrans_neg (lon lat dist e : ℝ)
    (hb0 : -90 < lat) (hb1 : lat < 90) :
    cotrans (cotrans (lon, lat, dist) e) (-e) = (degnormR lon, lat, dist) := by
  have hkpos : 0 < DEGTORAD := DEGTORAD_pos
  have hkne : DEGTORAD ≠ 0 := ne_of_gt hkpos
  have hhalf : 90 * DEGTORAD = Real.pi / 2 := by
    unfold DEGTORAD
    ring
  have hbl : -(Real.pi / 2) < lat * DEGTORAD := by
    have h := mul_lt_mul_of_pos_right hb0 hkpos
    calc -(Real.pi / 2) = -90 * DEGTORAD := by rw [← hhalf]; ring
      _ < lat * DEGTORAD := h
  have hbh : lat * DEGTORAD < Real.pi / 2 := by
    have h := mul_lt_mul_of_pos_right hb1 hkpos
    calc lat * DEGTORAD < 90 * DEGTORAD := h
      _ = Real.pi / 2 := hhalf
  have hcosb : 0 < Real.cos (lat * DEGTORAD) :=
    Real.cos_pos_of_mem_Ioo ⟨hbl, hbh⟩
  have hnorm :
      (coortrf (polcart (lon * DEGTORAD) (lat * DEGTORAD)) (e * DEGTORAD)).1 ^ 2 +
      (coortrf (polcart (lon * DEGTORAD) (lat * DEGTORAD)) (e * DEGTORAD)).2.1 ^ 2 +
      (coortrf (polcart (lon * DEGTORAD) (lat * DEGTORAD)) (e * DEGTORAD)).2.2 ^ 2
        = 1 :=
    (coortrf_norm _ _).trans (polcart_norm _ _)
  rw [cotrans_def, cotrans_def]
  dsimp only
  rw [div_mul_cancel₀ _ hkne, div_mul_cancel₀ _ hkne]
  rw [show (-e) * DEGTORAD = -(e * DEGTORAD) by ring]
  rw [polcart_cartpol _ hnorm]
  rw [coortrf_coortrf_neg]
  unfold polcart
  dsimp only
  rw [mul_comm (Real.cos (lon * DEGTORAD)) (Real.cos (lat * DEGTORAD)),
    mul_comm (Real.sin (lon * DEGTORAD)) (Real.cos (lat * DEGTORAD))]
  rw [cartpolLon_polcart_gen (lon * DEGTORAD) hcosb]
  have harg : lon * DEGTORAD / (2 * Real.pi) = lon / 360 := by
    rw [div_eq_div_iff (ne_of_gt Real.two_pi_pos) (by norm_num : (360:ℝ) ≠ 0)]
    unfold DEGTORAD
    ring
  rw [harg]
  have hexp : lon * DEGTORAD - 2 * Real.pi * (⌊lon / 360⌋ : ℝ) =
      DEGTORAD * (lon - 360 * ⌊lon / 360⌋) := by
    unfold DEGTORAD
    ring
  rw [hexp, mul_div_cancel_left₀ _ hkne]
  rw [Real.arcsin_sin (le_of_lt hbl) (le_of_lt hbh)]
  rw [mul_div_cancel_right₀ lat hkne]
  rfl

/-! ### Claim theorems -/

/-- Claim C1: for every pair of degree values a and b, the signed arc
distance difdeg2n(a,b) lies in [-180,180) and the unsigned arc distance
difdegn(a,b) lies in [0,360), the two are related by unsigned = signed
mod 360, and in particular difdeg2n(120,130) = -10 and
difdegn(120,130) = 350. -/
theorem claim_C1_arc_distances :
    (∀ a b : ℚ, -180 ≤ difdeg2n a b ∧ difdeg2n a b < 180 ∧
      0 ≤ difdegn a b ∧ difdegn a b < 360 ∧
      degnorm (difdeg2n a b) = difdegn a b) ∧
    difdeg2n 120 130 = -10 ∧ difdegn 120 130 = 350 := by
  refine ⟨fun a b => ⟨difdeg2n_lower a b, difdeg2n_upper a b,
    degnorm_nonneg (a - b), degnorm_lt (a - b), degnorm_difdeg2n a b⟩, ?_, ?_⟩
  · unfold difdeg2n
    rw [show (120:ℚ) - 130 = -10 by norm_num, degnorm_neg_ten,
      if_pos (by norm_num : (180:ℚ) ≤ 350)]
    norm_num
  · unfold difdegn
    rw [show (120:ℚ) - 130 = -10 by norm_num, degnorm_neg_ten]

/-- Claim C5: degnorm always returns a value in [0,360) and radnorm a value
in [0,2*pi); consequently normalizing an already-normalized angle is a
no-op. -/
theorem claim_C5_normalization :
    (∀ x : ℚ, 0 ≤ degnorm x ∧ degnorm x < 360 ∧
      degnorm (degnorm x) = degnorm x) ∧
    (∀ x : ℝ, 0 ≤ radnorm x ∧ radnorm x < 2 * Real.pi ∧
      radnorm (radnorm x) = radnorm x) :=
  ⟨fun x => ⟨degnorm_nonneg x, degnorm_lt x, degnorm_degnorm x⟩,
   fun x => ⟨radnorm_nonneg x, radnorm_lt x, radnorm_radnorm x⟩⟩

/-- Claim C7: day_of_week maps every Julian Day to a weekday number with
Monday = 0 through Sunday = 6 (it always lands in [0,7) and advances by one,
cyclically, from one day to the next), and day_of_week(2459311) = 1
(Tuesday). -/
theorem claim_C7_day_of_week :
    (∀ jd : ℚ, 0 ≤ day_of_week jd ∧ day_of_week jd < 7 ∧
      day_of_week (jd + 1) = (day_of_week jd + 1) % 7) ∧
    day_of_week 2459311 = 1 := by
  refine ⟨fun jd => ⟨day_of_week_nonneg jd, day_of_week_lt jd,
    day_of_week_succ jd⟩, ?_⟩
  unfold day_of_week
  rw [show ⌊(2459311:ℚ) + 1 / 2⌋ = 2459311 by norm_num]
  decide

/-- Claim C6: date_conversion validates the calendar date; invalid dates
yield the distinct ERR flag with no silently clamped Julian Day, while the
valid input (1995, 5, 15, 13.75, gregorian) yields OK with a Julian Day
whose fractional part measured from midnight equals 13.75 hours of a day. -/
theorem claim_C6_date_conversion :
    (∀ (cal : Char) (y m d : ℤ) (h : ℚ), ¬ validDate cal y m d h →
      date_conversion y m d h cal = { flag := SweFlag.ERR, data := none }) ∧
    (date_conversion 1995 5 15 (55 / 4) 'g').flag = SweFlag.OK ∧
    (date_conversion 1995 5 15 (55 / 4) 'g').data = some (235185895 / 96) ∧
    Int.fract ((235185895 : ℚ) / 96 + 1 / 2) = (55 / 4) / 24 := by
  have hval : validDate 'g' 1995 5 15 (55 / 4) := by
    unfold validDate daysInMonth
    norm_num
  have hjdn : jdn 'g' 1995 5 15 = 2449853 := by decide
  refine ⟨fun cal y m d h hv => date_conversion_invalid y m d h cal hv,
    ?_, ?_, ?_⟩
  · unfold date_conversion
    rw [if_pos hval]
  · unfold date_conversion
    rw [if_pos hval]
    unfold julday
    rw [hjdn]
    norm_num
  · rw [Int.fract]
    norm_num

/-- Witness for claim C6: the invalid date 1995-02-30 is rejected with the
ERR flag and no data. -/
theorem claim_C6_witness :
    ¬ validDate 'g' 1995 2 30 0 ∧
    date_conversion 1995 2 30 0 'g' = { flag := SweFlag.ERR, data := none } := by
  have hinv : ¬ validDate 'g' 1995 2 30 0 := by
    unfold validDate daysInMonth isLeap
    norm_num
  exact ⟨hinv, claim_C6_date_conversion.1 'g' 1995 2 30 0 hinv⟩

/-- Claim C2: every operation of the houses family returns exactly 36
house-boundary longitudes when the house-system code is G (Gauquelin
sectors) and exactly 12 otherwise, and in both cases exactly 8 auxiliary
points. -/
theorem claim_C2_houses_shape (tjd : ℚ) (iflag : ℕ)
    (geolat geolon armc eps : ℚ) (hsys : Char) (decl : Option ℚ) :
    ((houses tjd geolat geolon hsys).data.houses.length
        = if hsys = 'G' then 36 else 12) ∧
    (houses tjd geolat geolon hsys).data.points.length = 8 ∧
    ((houses_ex tjd iflag geolat geolon hsys).data.houses.length
        = if hsys = 'G' then 36 else 12) ∧
    (houses_ex tjd iflag geolat geolon hsys).data.points.length = 8 ∧
    ((houses_ex2 tjd iflag geolat geolon hsys).data.houses.length
        = if hsys = 'G' then 36 else 12) ∧
    (houses_ex2 tjd iflag geolat geolon hsys).data.points.length = 8 ∧
    ((houses_armc armc geolat eps hsys decl).data.houses.length
        = if hsys = 'G' then 36 else 12) ∧
    (houses_armc armc geolat eps hsys decl).data.points.length = 8 ∧
    ((houses_armc_ex2 armc geolat eps hsys decl).data.houses.length
        = if hsys = 'G' then 36 else 12) ∧
    (houses_armc_ex2 armc geolat eps hsys decl).data.points.length = 8 := by
  unfold houses houses_ex houses_ex2 houses_armc houses_armc_ex2
  exact ⟨housesCore_houses_length _ _ _ _, housesCore_points_length _ _ _ _,
    housesCore_houses_length _ _ _ _, housesCore_points_length _ _ _ _,
    housesCore_houses_length _ _ _ _, housesCore_points_length _ _ _ _,
    housesCore_houses_length _ _ _ _, housesCore_points_length _ _ _ _,
    housesCore_houses_length _ _ _ _, housesCore_points_length _ _ _ _⟩

/-- Claim C3: at geographic latitude exactly +90 or -90 degrees, a quadrant
house system yields a soft-warning status (not a hard error) from houses_ex2
and houses_armc_ex2, and the data still contains 12 (or 36 for Gauquelin
sectors) house longitudes produced by the fallback system, plus the 8
points. -/
theorem claim_C3_polar_soft_warning (tjd : ℚ) (iflag : ℕ)
    (geolat geolon armc eps : ℚ) (hsys : Char) (decl : Option ℚ)
    (hlat : geolat = 90 ∨ geolat = -90) (hq : quadrantSystem hsys = true) :
    (houses_ex2 tjd iflag geolat geolon hsys).status = Status.warning ∧
    (houses_ex2 tjd iflag geolat geolon hsys).status ≠ Status.error ∧
    ((houses_ex2 tjd iflag geolat geolon hsys).data.houses.length
        = if hsys = 'G' then 36 else 12) ∧
    (houses_ex2 tjd iflag geolat geolon hsys).data.points.length = 8 ∧
    (houses_armc_ex2 armc geolat eps hsys decl).status = Status.warning ∧
    ((houses_armc_ex2 armc geolat eps hsys decl).data.houses.length
        = if hsys = 'G' then 36 else 12) ∧
    (houses_armc_ex2 armc geolat eps hsys decl).data.points.length = 8 := by
  have habs : (66:ℚ) ≤ |geolat| := by
    rcases hlat with h | h
    · rw [h, abs_of_nonneg (by norm_num : (0:ℚ) ≤ 90)]
      norm_num
    · rw [h, abs_of_nonpos (by norm_num : (-90:ℚ) ≤ 0)]
      norm_num
  unfold houses_ex2 houses_armc_ex2
  refine ⟨housesCore_polar _ _ _ _ hq habs, ?_,
    housesCore_houses_length _ _ _ _, housesCore_points_length _ _ _ _,
    housesCore_polar _ _ _ _ hq habs,
    housesCore_houses_length _ _ _ _, housesCore_points_length _ _ _ _⟩
  rw [housesCore_polar _ _ _ _ hq habs]
  decide

/-- Witness for claim C3: Placidus at the north pole gives a soft-warning
with 12 house cusps. -/
theorem claim_C3_witness :
    (((90:ℚ) = 90 ∨ (90:ℚ) = -90) ∧ quadrantSystem 'P' = true) ∧
    (houses_ex2 2451545 0 90 0 'P').status = Status.warning ∧
    (houses_ex2 2451545 0 90 0 'P').data.houses.length = 12 := by
  have h := claim_C3_polar_soft_warning 2451545 0 90 0 0 23 'P' none
    (Or.inl rfl) (by decide)
  refine ⟨⟨Or.inl rfl, by decide⟩, h.1, ?_⟩
  have h2 := h.2.2.1
  rw [if_neg (by decide : ¬ ('P' = 'G'))] at h2
  exact h2

/-- Counterexample for claim C4 as stated (for every coordinate triple): at
the pole, latitude 90, the round trip with eps = 0 loses the longitude 120
entirely (it returns longitude 0), and for the out-of-range longitude 370
the round trip returns the normalized longitude 10; neither discrepancy is
within any floating tolerance. -/
theorem claim_C4_counterexample :
    cotrans (cotrans (120, 90, 1) 0) (-0) ≠ ((120:ℝ), (90:ℝ), (1:ℝ)) ∧
    cotrans (cotrans (370, 0, 1) 0) (-0) ≠ ((370:ℝ), (0:ℝ), (1:ℝ)) := by
  constructor
  · rw [neg_zero, cotrans_pole_zero, cotrans_pole_zero]
    intro h
    have h1 : (0:ℝ) = 120 := congrArg Prod.fst h
    norm_num at h1
  · have h := cotrans_cotrans_neg 370 0 1 0 (by norm_num) (by norm_num)
    have hd : degnormR 370 = 10 := by
      unfold degnormR
      norm_num
    rw [h, hd]
    intro hcontra
    have h1 : (10:ℝ) = 370 := congrArg Prod.fst hcontra
    norm_num at h1

/-- Claim C4, amended: for every coordinate triple whose latitude lies
strictly between -90 and 90 (at the poles the longitude is not recoverable),
applying cotrans with obliquity eps and then with -eps recovers the original
lat exactly and the original lon up to normalization into [0,360) -- hence
exactly whenever lon already lies in that range -- and the dist slot (and
the distSpd slot in cotrans_sp) is returned unchanged by every single
application. -/
theorem claim_C4_cotrans_roundtrip (lon lat dist e : ℝ)
    (h2 : -90 < lat) (h3 : lat < 90) :
    cotrans (cotrans (lon, lat, dist) e) (-e) = (degnormR lon, lat, dist) ∧
    (0 ≤ lon → lon < 360 → degnormR lon = lon) ∧
    (∀ (p : ℝ × ℝ × ℝ) (eps : ℝ), (cotrans p eps).2.2 = p.2.2) ∧
    (∀ (p : CoordSp) (eps : ℝ),
      (cotrans_sp p eps).dist = p.dist ∧
      (cotrans_sp p eps).distSpd = p.distSpd) :=
  ⟨cotrans_cotrans_neg lon lat dist e h2 h3,
   fun ha hb => degnormR_eq_self ha hb,
   fun p eps => cotrans_dist p eps,
   fun p eps => ⟨cotrans_sp_dist p eps, cotrans_sp_distSpd p eps⟩⟩

/-- Witness for claim C4: the round trip at longitude 30 (already in range),
latitude 0, distance 1 and obliquity 23 returns the triple unchanged. -/
theorem claim_C4_witness :
    ((-90:ℝ) < 0 ∧ (0:ℝ) < 90) ∧
    cotrans (cotrans (30, 0, 1) 23) (-23) = ((30:ℝ), (0:ℝ), (1:ℝ)) := by
  have h := claim_C4_cotrans_roundtrip 30 0 1 23 (by norm_num) (by norm_num)
  have hd : degnormR 30 = 30 := h.2.1 (by norm_num) (by norm_num)
  refine ⟨⟨by norm_num, by norm_num⟩, ?_⟩
  rw [h.1, hd]

/-- Claim C8: for every date, body, and pair of flag sets of which one
requests speed and the other does not, the position calculation returns
identical values in the three spatial slots, while the three speed slots are
zero without the speed flag and non-zero with it; this holds for both the
terrestrial-time and the universal-time entry points. -/
theorem claim_C8_speed_flag (t : ℚ) (ipl : ℕ) (f0 f1 : ℕ)
    (h0 : speedRequested f0 = false) (h1 : speedRequested f1 = true) :
    ((calc_ut t ipl f0).data.lon = (calc_ut t ipl f1).data.lon ∧
     (calc_ut t ipl f0).data.lat = (calc_ut t ipl f1).data.lat ∧
     (calc_ut t ipl f0).data.dist = (calc_ut t ipl f1).data.dist ∧
     (calc_ut t ipl f0).data.lonSpd = 0 ∧
     (calc_ut t ipl f0).data.latSpd = 0 ∧
     (calc_ut t ipl f0).data.distSpd = 0 ∧
     (calc_ut t ipl f1).data.lonSpd ≠ 0 ∧
     (calc_ut t ipl f1).data.latSpd ≠ 0 ∧
     (calc_ut t ipl f1).data.distSpd ≠ 0) ∧
    ((calc_et t ipl f0).data.lon = (calc_et t ipl f1).data.lon ∧
     (calc_et t ipl f0).data.lat = (calc_et t ipl f1).data.lat ∧
     (calc_et t ipl f0).data.dist = (calc_et t ipl f1).data.dist ∧
     (calc_et t ipl f0).data.lonSpd = 0 ∧
     (calc_et t ipl f0).data.latSpd = 0 ∧
     (calc_et t ipl f0).data.distSpd = 0 ∧
     (calc_et t ipl f1).data.lonSpd ≠ 0 ∧
     (calc_et t ipl f1).data.latSpd ≠ 0 ∧
     (calc_et t ipl f1).data.distSpd ≠ 0) := by
  constructor
  · refine ⟨rfl, rfl, rfl, ?_, ?_, ?_, ?_, ?_, ?_⟩
    · simp [calc_ut, calcCore, h0]
    · simp [calc_ut, calcCore, h0]
    · simp [calc_ut, calcCore, h0]
    · simpa [calc_ut, calcCore, h1] using ne_of_gt (lonSpeedOf_pos ipl)
    · simpa [calc_ut, calcCore, h1] using ne_of_gt (latSpeedOf_pos ipl)
    · simpa [calc_ut, calcCore, h1] using ne_of_gt (distSpeedOf_pos ipl)
  · refine ⟨rfl, rfl, rfl, ?_, ?_, ?_, ?_, ?_, ?_⟩
    · simp [calc_et, calcCore, h0]
    · simp [calc_et, calcCore, h0]
    · simp [calc_et, calcCore, h0]
    · simpa [calc_et, calcCore, h1] using ne_of_gt (lonSpeedOf_pos ipl)
    · simpa [calc_et, calcCore, h1] using ne_of_gt (latSpeedOf_pos ipl)
    · simpa [calc_et, calcCore, h1] using ne_of_gt (distSpeedOf_pos ipl)

/-- Witness for claim C8: at the J2000 epoch for body 3, flag 0 does not
request speed and flag 256 does; the speed slot is zero in the first case
and non-zero in the second. -/
theorem claim_C8_witness :
    speedRequested 0 = false ∧ speedRequested 256 = true ∧
    (calc_ut 2451545 3 0).data.lonSpd = 0 ∧
    (calc_ut 2451545 3 256).data.lonSpd ≠ 0 := by
  obtain ⟨⟨_, _, _, hz, _, _, hnz, _, _⟩, _⟩ :=
    claim_C8_speed_flag 2451545 3 0 256 (by decide) (by decide)
  exact ⟨by decide, by decide, hz, hnz⟩

/-- Claim C9: heliacal_ut is only valid for observer geographic latitudes
between -60 and +60 degrees: every call whose latitude lies outside that
domain fails fast with the ERR status and returns no partial search data. -/
theorem claim_C9_heliacal_domain (tjd : ℚ) (dgeo : ℚ × ℚ × ℚ)
    (datm : ℚ × ℚ × ℚ × ℚ) (dobs : ℚ × ℚ × ℚ × ℚ × ℚ × ℚ)
    (object_name : String) (event_type hel_flag : ℕ)
    (h : dgeo.2.1 < -60 ∨ 60 < dgeo.2.1) :
    (heliacal_ut tjd dgeo datm dobs object_name event_type hel_flag).flag
      = SweFlag.ERR ∧
    (heliacal_ut tjd dgeo datm dobs object_name event_type hel_flag).data
      = none := by
  unfold heliacal_ut
  rw [if_pos h]
  exact ⟨rfl, rfl⟩

/-- Witness for claim C9: an observer at latitude 70 is out of domain and
the call fails fast. -/
theorem claim_C9_witness :
    (((8:ℚ), (70:ℚ), (900:ℚ)).2.1 < -60 ∨
      (60:ℚ) < ((8:ℚ), (70:ℚ), (900:ℚ)).2.1) ∧
    (heliacal_ut 2415362 (8, 70, 900) (1000, 10, 50, 0) (21, 0, 0, 0, 0, 0)
      ("venus") 0 0).flag = SweFlag.ERR := by
  have h : ((8:ℚ), (70:ℚ), (900:ℚ)).2.1 < -60 ∨
      (60:ℚ) < ((8:ℚ), (70:ℚ), (900:ℚ)).2.1 := Or.inr (by norm_num)
  exact ⟨h, (claim_C9_heliacal_domain 2415362 (8, 70, 900) (1000, 10, 50, 0)
    (21, 0, 0, 0, 0, 0) ("venus") 0 0 h).1⟩

/-- Claim C10: whenever house_pos succeeds, the returned house position
including fraction lies in [1, 13) for every normal 12-house system and in
[1, 37) for Gauquelin sectors; it is never 0 and never reaches the house
count plus one. -/
theorem claim_C10_house_pos_range (armc geolat eps : ℚ) (hsys : Char)
    (lon lat : ℚ) :
    1 ≤ (house_pos armc geolat eps hsys lon lat).data ∧
    (house_pos armc geolat eps hsys lon lat).data < houseCount hsys + 1 ∧
    (if hsys = 'G'
      then (house_pos armc geolat eps hsys lon lat).data < 37
      else (house_pos armc geolat eps hsys lon lat).data < 13) ∧
    (house_pos armc geolat eps hsys lon lat).data ≠ 0 := by
  have hlow := house_pos_lower armc geolat eps hsys lon lat
  have hupp := house_pos_upper armc geolat eps hsys lon lat
  refine ⟨hlow, hupp, ?_, ?_⟩
  · by_cases hG : hsys = 'G'
    · rw [if_pos hG]
      have hc : houseCount hsys = 36 := by
        unfold houseCount
        rw [if_pos hG]
      rw [hc] at hupp
      push_cast at hupp
      linarith
    · rw [if_neg hG]
      have hc : houseCount hsys = 12 := by
        unfold houseCount
        rw [if_neg hG]
      rw [hc] at hupp
      push_cast at hupp
      linarith
  · intro hzero
    rw [hzero] at hlow
    norm_num at hlow

/-- Witness for claim C10: a concrete evaluation of the range facts for the
Placidus code. -/
theorem claim_C10_witness :
    1 ≤ (house_pos 50 45 23 'P' 256 2).data ∧
    (house_pos 50 45 23 'P' 256 2).data < 13 := by
  have h := claim_C10_house_pos_range 50 45 23 'P' 256 2
  have h13 := h.2.2.1
  rw [if_neg (by decide : ¬ ('P' = 'G'))] at h13
  exact ⟨h.1, h13⟩
